import Mathlib

/-!
# Dispatch core of dkron: `Agent.RunQuery`

A shallow embedding of `dkron/queries.go`.  `RunQuery` talks to five
collaborators that live outside that file (the job store, the scheduler, the
consensus write `applySetJob`, the target selector `processFilteredNodes` and
the serf transport).  They are fields of the `Agent` structure below, so each
result holds for all of their behaviours.  The function is embedded as a pure
function returning the ordered log of collaborator calls it makes together with
its Go result `(*Job, error)`.
-/

namespace Dkron

/-! ## Data model -/

/-- The fields of `Job` that `RunQuery` reads or writes.  `Next` is a
`time.Time`, kept as an abstract instant. -/
structure Job where
  Name : String
  ParentJob : String
  Next : Nat
  Tags : List (String × String)
  deriving DecidableEq, Repr

/-- The fields of `Execution` that `RunQuery` reads. -/
structure Execution where
  JobName : String
  Attempt : Int
  NodeName : String
  deriving DecidableEq, Repr

/-- A scheduler entry, as returned by `a.sched.GetEntry`. -/
structure Entry where
  Next : Nat
  deriving DecidableEq, Repr

/-- QueryRunJob define a run job query string -/
def QueryRunJob : String := "run:job"

/-- QueryExecutionDone define the execution done query string -/
def QueryExecutionDone : String := "execution:done"

/-- RunQueryParam defines the struct used to send a Run query using serf:
`execution` and `rpc_addr` on the wire. -/
structure RunQueryParam where
  Execution : Execution
  RPCAddr : String
  deriving DecidableEq, Repr

/-- The two fields of `serf.QueryParam` that `RunQuery` sets. -/
structure QueryParam where
  FilterNodes : List String
  RequestAck : Bool
  deriving DecidableEq, Repr

/-- One pass through the `select` of the receive loop.  `ack s` is a value
received on `ackCh` (`ok == true`), `ackClosed` a receive on the closed
`ackCh` (`ok == false`, the received value is the zero string), and likewise
for `respCh`. -/
inductive Recv where
  | ack (sender : String)
  | ackClosed
  | resp (sender : String) (payload : String)
  | respClosed
  deriving DecidableEq, Repr

/-- The errors `RunQuery` builds with `fmt.Errorf`, one constructor per return
site; the last argument is the wrapped (`%w`) cause where there is one. -/
inductive DispatchError where
  | retrievingJobFromStore (jobName : String) (err : String)
  | storingJob (jobName : String) (err : String)
  | retrievingJobFromScheduler (jobName : String)
  | processingFilteredNodes (err : String)
  | sendingQuery (err : String)
  deriving DecidableEq, Repr

/-- The Go result `(*Job, error)`: `failed e` is `(nil, e)`, `returned j` is
`(j, nil)`. -/
inductive Result where
  | failed (err : DispatchError)
  | returned (job : Job)
  deriving DecidableEq, Repr

/-- A call that `RunQuery` makes on a collaborator, with its arguments.
`applySetJob` is logged with the job whose `ToProto()` is passed to it (the
conversion is not in this file).  Of the logger only the final
`log.Error` line is kept; the debug and info lines carry no state. -/
inductive Call where
  | GetJob (jobName : String)
  | GetEntry (jobName : String)
  | applySetJob (job : Job)
  | processFilteredNodes (job : Job)
  | Query (name : String) (payload : String) (params : QueryParam)
  | logError (nodes : List String)
  deriving DecidableEq, Repr

/-- The agent as `RunQuery` sees it: one field per collaborator call.  Calls
that are made on every pass of the retry loop take the value of `retry` as
first argument, so that their answer may change from one pass to the next.

* `GetJob name` is `a.Store.GetJob(name, nil)`;
* `GetEntry name` is `a.sched.GetEntry(name)`, `none` when `ok` is false;
* `applySetJob job` is the error of `a.applySetJob(job.ToProto())`, `none`
  for `nil`;
* `processFilteredNodes job` is the node list or the error of
  `a.processFilteredNodes(job)` (the tag map it also returns is discarded);
* `getRPCAddr` is `a.getRPCAddr()`;
* `marshal` is `json.Marshal`, whose error `RunQuery` discards;
* `Query retry name payload params` is `a.serf.Query(name, payload, params)`:
  its error, or else the receives that the `select` of the receive loop makes
  until `qr.Finished()` is true (a list, so each accepted query finishes);
* `rangeOrder` is the order in which `range filterMap` visits the keys, which
  Go leaves unspecified: any rearrangement of the keys. -/
structure Agent where
  GetJob : String → Except String Job
  GetEntry : String → Option Entry
  applySetJob : Job → Option String
  processFilteredNodes : Job → Except String (List String)
  getRPCAddr : Nat → String
  marshal : RunQueryParam → String
  Query : Nat → String → String → QueryParam → Except String (List Recv)
  rangeOrder : Nat → List String → List String
  rangeOrder_perm : ∀ n keys, (rangeOrder n keys).Perm keys

/-! ## The map `filterMap : map[string]bool`

Only the value `true` is ever stored, so the map is its list of keys, kept
without repetition. -/

/-- The assignment `filterMap[n] = true`. -/
def mapSet (filterMap : List String) (n : String) : List String :=
  if n ∈ filterMap then filterMap else filterMap ++ [n]

/-- The builtin `delete(filterMap, k)`. -/
def mapDelete (filterMap : List String) (k : String) : List String :=
  filterMap.filter (fun n => decide (n ≠ k))

/-! ## `RunQuery` -/

/-- The loop `for !qr.Finished() { select { ... } }`, run over the receives
that happen until the query is finished; returns `filterMap` as it stands
when the loop exits. -/
def recvLoop (filterMap : List String) : List Recv → List String
  | [] => filterMap
  | Recv.ack ack :: rest => recvLoop (mapDelete filterMap ack) rest
  | Recv.ackClosed :: rest => recvLoop (mapDelete filterMap "") rest
  | Recv.resp _ _ :: rest => recvLoop filterMap rest
  | Recv.respClosed :: rest => recvLoop filterMap rest

/-- The `serf.QueryParam` built after the label `Retry:`: `filterNodes`
collects the keys of `filterMap` in the order `range` yields them. -/
def queryParams (a : Agent) (retry : Nat) (filterMap : List String) : QueryParam :=
  let filterNodes := a.rangeOrder retry filterMap
  { FilterNodes := filterNodes, RequestAck := true }

/-- The payload `rqpJSON`: `json.Marshal` of the `RunQueryParam` holding the
caller's execution and `a.getRPCAddr()`. -/
def queryPayload (a : Agent) (ex : Execution) (retry : Nat) : String :=
  let rqp : RunQueryParam := { Execution := ex, RPCAddr := a.getRPCAddr retry }
  a.marshal rqp

/-- The code from the label `Retry:` to the end of `RunQuery`, entered with
the current values of `retry` and `filterMap`. -/
def retryLoop (a : Agent) (job : Job) (ex : Execution) (retry : Nat)
    (filterMap : List String) : List Call × Result :=
  let params := queryParams a retry filterMap
  let rqpJSON := queryPayload a ex retry
  match a.Query retry QueryRunJob rqpJSON params with
  | Except.error err =>
    ([Call.Query QueryRunJob rqpJSON params],
      Result.failed (DispatchError.sendingQuery err))
  | Except.ok recvs =>
    let filterMap := recvLoop filterMap recvs
    if filterMap.length > 0 then
      if retry < 10 then
        let r := retryLoop a job ex (retry + 1) filterMap
        (Call.Query QueryRunJob rqpJSON params :: r.1, r.2)
      else
        ([Call.Query QueryRunJob rqpJSON params, Call.logError filterMap],
          Result.returned job)
    else
      ([Call.Query QueryRunJob rqpJSON params], Result.returned job)
termination_by 10 - retry
decreasing_by omega

/-- The code from the comment "In the first execution attempt we build and
filter the target nodes" down to `retry := 0`: the `filterMap` the retry
loop is entered with. -/
def buildFilterMap (a : Agent) (job : Job) (ex : Execution) :
    List Call × Except DispatchError (List String) :=
  if ex.Attempt ≤ 1 then
    match a.processFilteredNodes job with
    | Except.error err =>
      ([Call.processFilteredNodes job],
        Except.error (DispatchError.processingFilteredNodes err))
    | Except.ok fn =>
      ([Call.processFilteredNodes job], Except.ok (fn.foldl mapSet []))
  else
    ([], Except.ok [ex.NodeName])

/-- The first part of `RunQuery`: read the job from the store and, when it
is not a child job, take `Next` from the scheduler entry and store the job. -/
def refreshJob (a : Agent) (jobName : String) : List Call × Except DispatchError Job :=
  match a.GetJob jobName with
  | Except.error err =>
    ([Call.GetJob jobName],
      Except.error (DispatchError.retrievingJobFromStore jobName err))
  | Except.ok job =>
    if job.ParentJob = "" then
      match a.GetEntry jobName with
      | some e =>
        let job := { job with Next := e.Next }
        match a.applySetJob job with
        | some err =>
          ([Call.GetJob jobName, Call.GetEntry jobName, Call.applySetJob job],
            Except.error (DispatchError.storingJob jobName err))
        | none =>
          ([Call.GetJob jobName, Call.GetEntry jobName, Call.applySetJob job],
            Except.ok job)
      | none =>
        ([Call.GetJob jobName, Call.GetEntry jobName],
          Except.error (DispatchError.retrievingJobFromScheduler jobName))
    else
      ([Call.GetJob jobName], Except.ok job)

/-- RunQuery sends a serf run query to the cluster, this is used to ask a node
or nodes to run a Job. Returns a job with its new status and next schedule.
The first component is the log of collaborator calls, oldest first. -/
def RunQuery (a : Agent) (jobName : String) (ex : Execution) : List Call × Result :=
  match refreshJob a jobName with
  | (log, Except.error err) => (log, Result.failed err)
  | (log, Except.ok job) =>
    match buildFilterMap a job ex with
    | (log2, Except.error err) => (log ++ log2, Result.failed err)
    | (log2, Except.ok filterMap) =>
      let r := retryLoop a job ex 0 filterMap
      (log ++ log2 ++ r.1, r.2)

/-! ## Reading the call log -/

/-- One `a.serf.Query` call, with its three arguments. -/
structure Broadcast where
  name : String
  payload : String
  params : QueryParam
  deriving DecidableEq, Repr

/-- The broadcasts of a call log, oldest first. -/
def broadcasts : List Call → List Broadcast
  | [] => []
  | Call.Query name payload params :: rest =>
    { name := name, payload := payload, params := params } :: broadcasts rest
  | Call.GetJob _ :: rest => broadcasts rest
  | Call.GetEntry _ :: rest => broadcasts rest
  | Call.applySetJob _ :: rest => broadcasts rest
  | Call.processFilteredNodes _ :: rest => broadcasts rest
  | Call.logError _ :: rest => broadcasts rest

/-- Whether a call is an `a.serf.Query` call. -/
def Call.isQuery : Call → Bool
  | Call.Query _ _ _ => true
  | _ => false

/-- The calls made before the first broadcast. -/
def beforeBroadcast (log : List Call) : List Call :=
  log.takeWhile (fun c => !c.isQuery)

/-- The calls made from the first broadcast on. -/
def fromBroadcast (log : List Call) : List Call :=
  log.dropWhile (fun c => !c.isQuery)

/-- The member names received with `ok == true` on the ack channel. -/
def ackedNames : List Recv → List String
  | [] => []
  | Recv.ack sender :: rest => sender :: ackedNames rest
  | _ :: rest => ackedNames rest

/-- The keys handed to `delete(filterMap, ack)` during the receive loop: the
sender of each ack and the zero string for each receive on the closed ack
channel. -/
def deletedKeys : List Recv → List String
  | [] => []
  | Recv.ack sender :: rest => sender :: deletedKeys rest
  | Recv.ackClosed :: rest => "" :: deletedKeys rest
  | Recv.resp _ _ :: rest => deletedKeys rest
  | Recv.respClosed :: rest => deletedKeys rest

/-! ## Concrete clusters -/

/-- A three-member cluster for the concrete runs.  Jobs by name: `"j"` is
scheduled, `"child"` has a parent and no schedule, `"orphan"` has neither,
`"ro"` is scheduled but cannot be stored, `"badtag"` makes the target selector
fail, `"nomatch"` selects nobody; any other name is not in the store.  Members
`n1` and `n3` ack every query, `n2` never does. -/
def demoAgent : Agent where
  GetJob := fun name =>
    if name = "child" then
      Except.ok { Name := name, ParentJob := "parent", Next := 5, Tags := [] }
    else if name = "badtag" then
      Except.ok { Name := name, ParentJob := "", Next := 5, Tags := [("t", "v:abc")] }
    else if name = "nomatch" then
      Except.ok { Name := name, ParentJob := "", Next := 5, Tags := [("role", "gpu")] }
    else if name = "j" ∨ name = "orphan" ∨ name = "ro" then
      Except.ok { Name := name, ParentJob := "", Next := 5, Tags := [] }
    else Except.error "not found"
  GetEntry := fun name => if name = "orphan" then none else some { Next := 42 }
  applySetJob := fun job => if job.Name = "ro" then some "not leader" else none
  processFilteredNodes := fun job =>
    if job.Name = "badtag" then Except.error "bad tag expression"
    else if job.Name = "nomatch" then Except.ok []
    else Except.ok ["n1", "n2", "n3"]
  getRPCAddr := fun _ => "10.0.0.1:6868"
  marshal := fun p => p.Execution.NodeName ++ "@" ++ p.RPCAddr
  Query := fun _ _ _ _ =>
    Except.ok [Recv.ack "n1", Recv.resp "n1" "ok", Recv.ack "n3", Recv.ackClosed]
  rangeOrder := fun _ keys => keys
  rangeOrder_perm := fun _ keys => List.Perm.refl keys

/-- The same cluster with a transport that refuses the third broadcast. -/
def flakyAgent : Agent :=
  { demoAgent with
    Query := fun retry _ _ _ =>
      if retry = 2 then Except.error "no route"
      else Except.ok [Recv.ack "n1", Recv.respClosed] }

/-- The same cluster with a scheduler that has no entry at all. -/
def unscheduledAgent : Agent :=
  { demoAgent with GetEntry := fun _ => none }

/-- The same cluster when nobody answers: every query times out and the
receive loop sees only the closing of the ack channel. -/
def silentAgent : Agent :=
  { demoAgent with Query := fun _ _ _ _ => Except.ok [Recv.ackClosed] }

/-- The claim that each retry goes to strictly fewer nodes than the broadcast
before it, over the broadcasts of one call. -/
def StrictlyShrinking (bs : List Broadcast) : Prop :=
  ∀ (k : Nat) (q q2 : Broadcast), bs[k]? = some q → bs[k + 1]? = some q2 →
    (∀ n ∈ q2.params.FilterNodes, n ∈ q.params.FilterNodes) ∧
      ∃ n ∈ q.params.FilterNodes, n ∉ q2.params.FilterNodes

/-! ## The receive loop -/

theorem mem_mapDelete (filterMap : List String) (k n : String) :
    n ∈ mapDelete filterMap k ↔ n ∈ filterMap ∧ n ≠ k := by
  simp [mapDelete]

/-- The receive loop keeps exactly the keys that were never handed to
`delete`, in their order. -/
theorem recvLoop_eq_filter (filterMap : List String) (recvs : List Recv) :
    recvLoop filterMap recvs
      = filterMap.filter (fun n => decide (n ∉ deletedKeys recvs)) := by
  induction recvs generalizing filterMap with
  | nil => simp [recvLoop, deletedKeys]
  | cons r rest ih =>
    cases r with
    | ack sender =>
      simp only [recvLoop, deletedKeys, ih, mapDelete, List.filter_filter]
      congr 1
      funext n
      simp only [List.mem_cons, not_or, ne_eq, decide_not, Bool.decide_and]
      exact Bool.and_comm _ _
    | ackClosed =>
      simp only [recvLoop, deletedKeys, ih, mapDelete, List.filter_filter]
      congr 1
      funext n
      simp only [List.mem_cons, not_or, ne_eq, decide_not, Bool.decide_and]
      exact Bool.and_comm _ _
    | resp sender payload => simpa only [recvLoop, deletedKeys] using ih filterMap
    | respClosed => simpa only [recvLoop, deletedKeys] using ih filterMap

theorem mem_recvLoop (filterMap : List String) (recvs : List Recv) (n : String) :
    n ∈ recvLoop filterMap recvs ↔ n ∈ filterMap ∧ n ∉ deletedKeys recvs := by
  simp [recvLoop_eq_filter]

theorem recvLoop_sublist (filterMap : List String) (recvs : List Recv) :
    (recvLoop filterMap recvs).Sublist filterMap := by
  rw [recvLoop_eq_filter]
  exact List.filter_sublist _

theorem recvLoop_nodup (filterMap : List String) (recvs : List Recv)
    (h : filterMap.Nodup) : (recvLoop filterMap recvs).Nodup :=
  h.sublist (recvLoop_sublist filterMap recvs)

theorem recvLoop_perm (filterMap filterMap2 : List String) (recvs : List Recv)
    (h : filterMap.Perm filterMap2) :
    (recvLoop filterMap recvs).Perm (recvLoop filterMap2 recvs) := by
  rw [recvLoop_eq_filter, recvLoop_eq_filter]
  exact h.filter _

theorem mem_deletedKeys (recvs : List Recv) (n : String) :
    n ∈ deletedKeys recvs ↔ n ∈ ackedNames recvs ∨ (n = "" ∧ Recv.ackClosed ∈ recvs) := by
  induction recvs with
  | nil => simp [deletedKeys, ackedNames]
  | cons r rest ih =>
    cases r with
    | ack sender => simp only [deletedKeys, ackedNames, List.mem_cons, ih]; aesop
    | ackClosed => simp only [deletedKeys, ackedNames, List.mem_cons, ih]; aesop
    | resp sender payload => simp only [deletedKeys, ackedNames, List.mem_cons, ih]; aesop
    | respClosed => simp only [deletedKeys, ackedNames, List.mem_cons, ih]; aesop

/-! ## Building the map from the selected nodes -/

theorem mapSet_nodup (filterMap : List String) (n : String) (h : filterMap.Nodup) :
    (mapSet filterMap n).Nodup := by
  unfold mapSet
  split
  · exact h
  · rename_i hn
    exact List.Nodup.append h (List.nodup_singleton n) (by simpa using hn)

theorem mem_mapSet (filterMap : List String) (n k : String) :
    k ∈ mapSet filterMap n ↔ k ∈ filterMap ∨ k = n := by
  unfold mapSet
  split
  · rename_i hn
    constructor
    · exact Or.inl
    · rintro (h | h)
      · exact h
      · exact h ▸ hn
  · simp

theorem foldl_mapSet_nodup (fn : List String) (filterMap : List String)
    (h : filterMap.Nodup) : (fn.foldl mapSet filterMap).Nodup := by
  induction fn generalizing filterMap with
  | nil => simpa using h
  | cons n rest ih => exact ih _ (mapSet_nodup filterMap n h)

theorem mem_foldl_mapSet (fn : List String) (filterMap : List String) (k : String) :
    k ∈ fn.foldl mapSet filterMap ↔ k ∈ filterMap ∨ k ∈ fn := by
  induction fn generalizing filterMap with
  | nil => simp
  | cons n rest ih =>
    rw [List.foldl_cons, ih, mem_mapSet, List.mem_cons]
    tauto

/-! ## The four ways through one pass of the retry loop -/

theorem retryLoop_error (a : Agent) (job : Job) (ex : Execution) (retry : Nat)
    (filterMap : List String) (err : String)
    (h : a.Query retry QueryRunJob (queryPayload a ex retry) (queryParams a retry filterMap)
      = Except.error err) :
    retryLoop a job ex retry filterMap =
      ([Call.Query QueryRunJob (queryPayload a ex retry) (queryParams a retry filterMap)],
        Result.failed (DispatchError.sendingQuery err)) := by
  rw [retryLoop]
  simp only [h]

theorem retryLoop_again (a : Agent) (job : Job) (ex : Execution) (retry : Nat)
    (filterMap : List String) (recvs : List Recv)
    (h : a.Query retry QueryRunJob (queryPayload a ex retry) (queryParams a retry filterMap)
      = Except.ok recvs)
    (hne : (recvLoop filterMap recvs).length > 0) (hr : retry < 10) :
    retryLoop a job ex retry filterMap =
      (Call.Query QueryRunJob (queryPayload a ex retry) (queryParams a retry filterMap)
          :: (retryLoop a job ex (retry + 1) (recvLoop filterMap recvs)).1,
        (retryLoop a job ex (retry + 1) (recvLoop filterMap recvs)).2) := by
  rw [retryLoop]
  simp only [h, hne, hr, if_true]

theorem retryLoop_giveUp (a : Agent) (job : Job) (ex : Execution) (retry : Nat)
    (filterMap : List String) (recvs : List Recv)
    (h : a.Query retry QueryRunJob (queryPayload a ex retry) (queryParams a retry filterMap)
      = Except.ok recvs)
    (hne : (recvLoop filterMap recvs).length > 0) (hr : ¬ retry < 10) :
    retryLoop a job ex retry filterMap =
      ([Call.Query QueryRunJob (queryPayload a ex retry) (queryParams a retry filterMap),
          Call.logError (recvLoop filterMap recvs)],
        Result.returned job) := by
  rw [retryLoop]
  simp only [h, hne, hr, if_true, if_false]

theorem retryLoop_done (a : Agent) (job : Job) (ex : Execution) (retry : Nat)
    (filterMap : List String) (recvs : List Recv)
    (h : a.Query retry QueryRunJob (queryPayload a ex retry) (queryParams a retry filterMap)
      = Except.ok recvs)
    (hne : ¬ (recvLoop filterMap recvs).length > 0) :
    retryLoop a job ex retry filterMap =
      ([Call.Query QueryRunJob (queryPayload a ex retry) (queryParams a retry filterMap)],
        Result.returned job) := by
  rw [retryLoop]
  simp only [h, hne, if_false]

/-- The retry loop ends either with the job it was given or with a transport
error. -/
theorem retryLoop_result (a : Agent) (job : Job) (ex : Execution) (retry : Nat)
    (filterMap : List String) :
    (retryLoop a job ex retry filterMap).2 = Result.returned job ∨
      ∃ err, (retryLoop a job ex retry filterMap).2
        = Result.failed (DispatchError.sendingQuery err) := by
  induction retry, filterMap using retryLoop.induct a job ex with
  | case1 retry filterMap params rqpJSON err h =>
    rw [retryLoop_error a job ex retry filterMap err h]
    exact Or.inr ⟨err, rfl⟩
  | case2 retry filterMap params rqpJSON recvs h fm1 hne hr ih =>
    rw [retryLoop_again a job ex retry filterMap recvs h hne hr]
    exact ih
  | case3 retry filterMap params rqpJSON recvs h fm1 hne hr =>
    rw [retryLoop_giveUp a job ex retry filterMap recvs h hne hr]
    exact Or.inl rfl
  | case4 retry filterMap params rqpJSON recvs h fm1 hne =>
    rw [retryLoop_done a job ex retry filterMap recvs h hne]
    exact Or.inl rfl

/-! ## What the retry loop logs -/

theorem queryParams_perm (a : Agent) (retry : Nat) (filterMap : List String) :
    (queryParams a retry filterMap).FilterNodes.Perm filterMap :=
  a.rangeOrder_perm retry filterMap

theorem queryParams_ack (a : Agent) (retry : Nat) (filterMap : List String) :
    (queryParams a retry filterMap).RequestAck = true := rfl

/-- The loop logs nothing but broadcasts and, when it gives up, one error
line. -/
theorem retryLoop_log_shape (a : Agent) (job : Job) (ex : Execution) (retry : Nat)
    (filterMap : List String) :
    ∀ c ∈ (retryLoop a job ex retry filterMap).1,
      c.isQuery = true ∨ ∃ nodes, c = Call.logError nodes := by
  induction retry, filterMap using retryLoop.induct a job ex with
  | case1 retry filterMap params rqpJSON err h =>
    rw [retryLoop_error a job ex retry filterMap err h]
    intro c hc
    simp only [List.mem_singleton] at hc
    subst hc
    exact Or.inl rfl
  | case2 retry filterMap params rqpJSON recvs h fm1 hne hr ih =>
    rw [retryLoop_again a job ex retry filterMap recvs h hne hr]
    intro c hc
    rcases List.mem_cons.mp hc with hc | hc
    · subst hc
      exact Or.inl rfl
    · exact ih c hc
  | case3 retry filterMap params rqpJSON recvs h fm1 hne hr =>
    rw [retryLoop_giveUp a job ex retry filterMap recvs h hne hr]
    intro c hc
    simp only [List.mem_cons, List.mem_singleton, List.not_mem_nil, or_false] at hc
    rcases hc with hc | hc
    · subst hc
      exact Or.inl rfl
    · exact Or.inr ⟨_, hc⟩
  | case4 retry filterMap params rqpJSON recvs h fm1 hne =>
    rw [retryLoop_done a job ex retry filterMap recvs h hne]
    intro c hc
    simp only [List.mem_singleton] at hc
    subst hc
    exact Or.inl rfl

/-- The loop starts with a broadcast to the residual it was entered with. -/
theorem retryLoop_head (a : Agent) (job : Job) (ex : Execution) (retry : Nat)
    (filterMap : List String) :
    ∃ rest, (retryLoop a job ex retry filterMap).1 =
      Call.Query QueryRunJob (queryPayload a ex retry) (queryParams a retry filterMap)
        :: rest := by
  cases h : a.Query retry QueryRunJob (queryPayload a ex retry) (queryParams a retry filterMap) with
  | error err =>
    rw [retryLoop_error a job ex retry filterMap err h]
    exact ⟨[], rfl⟩
  | ok recvs =>
    by_cases hne : (recvLoop filterMap recvs).length > 0
    · by_cases hr : retry < 10
      · rw [retryLoop_again a job ex retry filterMap recvs h hne hr]
        exact ⟨_, rfl⟩
      · rw [retryLoop_giveUp a job ex retry filterMap recvs h hne hr]
        exact ⟨_, rfl⟩
    · rw [retryLoop_done a job ex retry filterMap recvs h hne]
      exact ⟨[], rfl⟩

/-- The retry counter bounds the number of broadcasts still to come. -/
theorem retryLoop_count (a : Agent) (job : Job) (ex : Execution) (retry : Nat)
    (filterMap : List String) (hretry : retry ≤ 10) :
    (broadcasts (retryLoop a job ex retry filterMap).1).length + retry ≤ 11 := by
  induction retry, filterMap using retryLoop.induct a job ex with
  | case1 retry filterMap params rqpJSON err h =>
    rw [retryLoop_error a job ex retry filterMap err h]
    simp only [broadcasts, List.length_cons, List.length_nil]
    omega
  | case2 retry filterMap params rqpJSON recvs h fm1 hne hr ih =>
    rw [retryLoop_again a job ex retry filterMap recvs h hne hr]
    have ih2 : (broadcasts (retryLoop a job ex (retry + 1)
        (recvLoop filterMap recvs)).1).length + (retry + 1) ≤ 11 := ih (by omega)
    simp only [broadcasts, List.length_cons]
    omega
  | case3 retry filterMap params rqpJSON recvs h fm1 hne hr =>
    rw [retryLoop_giveUp a job ex retry filterMap recvs h hne hr]
    simp only [broadcasts, List.length_cons, List.length_nil]
    omega
  | case4 retry filterMap params rqpJSON recvs h fm1 hne =>
    rw [retryLoop_done a job ex retry filterMap recvs h hne]
    simp only [broadcasts, List.length_cons, List.length_nil]
    omega

/-- Every broadcast of the loop, by position: its name, its payload, its ack
flag, and its filter nodes drawn without repetition from the residual the
loop was entered with. -/
theorem retryLoop_index (a : Agent) (job : Job) (ex : Execution) (retry : Nat)
    (filterMap : List String) :
    ∀ (i : Nat) (q : Broadcast),
      (broadcasts (retryLoop a job ex retry filterMap).1)[i]? = some q →
      q.name = QueryRunJob ∧ q.payload = queryPayload a ex (retry + i) ∧
      q.params.RequestAck = true ∧ (∀ n ∈ q.params.FilterNodes, n ∈ filterMap) ∧
      (filterMap.Nodup → q.params.FilterNodes.Nodup) ∧
      (filterMap ≠ [] → q.params.FilterNodes ≠ []) := by
  have base : ∀ (retry : Nat) (filterMap : List String) (i : Nat) (q : Broadcast),
      [({ name := QueryRunJob, payload := queryPayload a ex retry,
          params := queryParams a retry filterMap } : Broadcast)][i]? = some q →
      q.name = QueryRunJob ∧ q.payload = queryPayload a ex (retry + i) ∧
      q.params.RequestAck = true ∧ (∀ n ∈ q.params.FilterNodes, n ∈ filterMap) ∧
      (filterMap.Nodup → q.params.FilterNodes.Nodup) ∧
      (filterMap ≠ [] → q.params.FilterNodes ≠ []) := by
    intro retry filterMap i q hq
    cases i with
    | zero =>
      simp only [List.getElem?_cons_zero, Option.some.injEq] at hq
      subst hq
      refine ⟨rfl, rfl, rfl, ?_, ?_, ?_⟩
      · intro n hn
        exact (queryParams_perm a retry filterMap).mem_iff.mp hn
      · intro hnd
        exact (queryParams_perm a retry filterMap).nodup_iff.mpr hnd
      · intro hne hnil
        have hnil2 : (queryParams a retry filterMap).FilterNodes = [] := hnil
        have hp := queryParams_perm a retry filterMap
        rw [hnil2] at hp
        exact hne hp.nil_eq.symm
    | succ j => simp at hq
  induction retry, filterMap using retryLoop.induct a job ex with
  | case1 retry filterMap params rqpJSON err h =>
    rw [retryLoop_error a job ex retry filterMap err h]
    exact base retry filterMap
  | case2 retry filterMap params rqpJSON recvs h fm1 hne hr ih =>
    rw [retryLoop_again a job ex retry filterMap recvs h hne hr]
    intro i q hq
    cases i with
    | zero => exact base retry filterMap 0 q (by simpa [broadcasts] using hq)
    | succ j =>
      simp only [broadcasts, List.getElem?_cons_succ] at hq
      obtain ⟨h1, h2, h3, h4, h5, h6⟩ := ih j q hq
      refine ⟨h1, ?_, h3, ?_, ?_, ?_⟩
      · rw [h2]
        congr 1
        omega
      · intro n hn
        exact ((mem_recvLoop filterMap recvs n).mp (h4 n hn)).1
      · intro hnd
        exact h5 (recvLoop_nodup filterMap recvs hnd)
      · intro _
        exact h6 (List.ne_nil_of_length_pos hne)
  | case3 retry filterMap params rqpJSON recvs h fm1 hne hr =>
    rw [retryLoop_giveUp a job ex retry filterMap recvs h hne hr]
    exact base retry filterMap
  | case4 retry filterMap params rqpJSON recvs h fm1 hne =>
    rw [retryLoop_done a job ex retry filterMap recvs h hne]
    exact base retry filterMap

theorem retryLoop_broadcasts_head (a : Agent) (job : Job) (ex : Execution) (retry : Nat)
    (filterMap : List String) :
    ∃ rest, broadcasts (retryLoop a job ex retry filterMap).1 =
      { name := QueryRunJob, payload := queryPayload a ex retry,
        params := queryParams a retry filterMap } :: rest := by
  obtain ⟨rest, h⟩ := retryLoop_head a job ex retry filterMap
  rw [h]
  exact ⟨broadcasts rest, rfl⟩

/-- Two broadcasts in a row: the transport accepted the earlier one, and
the later one goes to what the receive loop left of the earlier one's filter
nodes, which is not empty. -/
theorem retryLoop_chain (a : Agent) (job : Job) (ex : Execution) (retry : Nat)
    (filterMap : List String) :
    ∀ (i : Nat) (q q2 : Broadcast),
      (broadcasts (retryLoop a job ex retry filterMap).1)[i]? = some q →
      (broadcasts (retryLoop a job ex retry filterMap).1)[i + 1]? = some q2 →
      ∃ recvs, a.Query (retry + i) q.name q.payload q.params = Except.ok recvs ∧
        q2.params.FilterNodes.Perm (recvLoop q.params.FilterNodes recvs) ∧
        q2.params.FilterNodes ≠ [] := by
  induction retry, filterMap using retryLoop.induct a job ex with
  | case1 retry filterMap params rqpJSON err h =>
    rw [retryLoop_error a job ex retry filterMap err h]
    intro i q q2 _ hq2
    simp [broadcasts] at hq2
  | case2 retry filterMap params rqpJSON recvs h fm1 hne hr ih =>
    rw [retryLoop_again a job ex retry filterMap recvs h hne hr]
    intro i q q2 hq hq2
    simp only [broadcasts, List.getElem?_cons_succ] at hq2
    cases i with
    | zero =>
      simp only [broadcasts, List.getElem?_cons_zero, Option.some.injEq] at hq
      subst hq
      obtain ⟨rest, hrest⟩ := retryLoop_broadcasts_head a job ex (retry + 1)
        (recvLoop filterMap recvs)
      rw [hrest] at hq2
      simp only [List.getElem?_cons_zero, Option.some.injEq] at hq2
      subst hq2
      refine ⟨recvs, h, ?_, ?_⟩
      · exact (queryParams_perm a (retry + 1) (recvLoop filterMap recvs)).trans
          (recvLoop_perm _ _ recvs (queryParams_perm a retry filterMap).symm)
      · intro hnil
        have hnil2 : (queryParams a (retry + 1) (recvLoop filterMap recvs)).FilterNodes = [] :=
          hnil
        have hp := queryParams_perm a (retry + 1) (recvLoop filterMap recvs)
        rw [hnil2] at hp
        have hl := hp.length_eq
        simp only [List.length_nil] at hl
        have hne2 : (recvLoop filterMap recvs).length > 0 := hne
        omega
    | succ j =>
      simp only [broadcasts, List.getElem?_cons_succ] at hq
      obtain ⟨recvs2, h1, h2, h3⟩ := ih j q q2 hq hq2
      refine ⟨recvs2, ?_, h2, h3⟩
      rw [← h1]
      congr 1
      omega
  | case3 retry filterMap params rqpJSON recvs h fm1 hne hr =>
    rw [retryLoop_giveUp a job ex retry filterMap recvs h hne hr]
    intro i q q2 _ hq2
    simp [broadcasts] at hq2
  | case4 retry filterMap params rqpJSON recvs h fm1 hne =>
    rw [retryLoop_done a job ex retry filterMap recvs h hne]
    intro i q q2 _ hq2
    simp [broadcasts] at hq2

/-- A broadcast the transport refuses is the last one, and its error is what
the loop returns. -/
theorem retryLoop_refused (a : Agent) (job : Job) (ex : Execution) (retry : Nat)
    (filterMap : List String) :
    ∀ (i : Nat) (q : Broadcast) (err : String),
      (broadcasts (retryLoop a job ex retry filterMap).1)[i]? = some q →
      a.Query (retry + i) q.name q.payload q.params = Except.error err →
      (retryLoop a job ex retry filterMap).2 = Result.failed (DispatchError.sendingQuery err) ∧
      (broadcasts (retryLoop a job ex retry filterMap).1).length = i + 1 := by
  induction retry, filterMap using retryLoop.induct a job ex with
  | case1 retry filterMap params rqpJSON err0 h =>
    rw [retryLoop_error a job ex retry filterMap err0 h]
    intro i q err hq herr
    cases i with
    | zero =>
      simp only [broadcasts, List.getElem?_cons_zero, Option.some.injEq] at hq
      subst hq
      simp only [Nat.add_zero] at herr
      rw [h] at herr
      cases herr
      exact ⟨rfl, rfl⟩
    | succ j => simp [broadcasts] at hq
  | case2 retry filterMap params rqpJSON recvs h fm1 hne hr ih =>
    rw [retryLoop_again a job ex retry filterMap recvs h hne hr]
    intro i q err hq herr
    cases i with
    | zero =>
      simp only [broadcasts, List.getElem?_cons_zero, Option.some.injEq] at hq
      subst hq
      simp only [Nat.add_zero] at herr
      rw [h] at herr
      cases herr
    | succ j =>
      simp only [broadcasts, List.getElem?_cons_succ] at hq
      have herr2 : a.Query (retry + 1 + j) q.name q.payload q.params = Except.error err := by
        rw [← herr]
        congr 1
        omega
      obtain ⟨h1, h2⟩ := ih j q err hq herr2
      refine ⟨h1, ?_⟩
      simp only [broadcasts, List.length_cons]
      exact congrArg (· + 1) h2
  | case3 retry filterMap params rqpJSON recvs h fm1 hne hr =>
    rw [retryLoop_giveUp a job ex retry filterMap recvs h hne hr]
    intro i q err hq herr
    cases i with
    | zero =>
      simp only [broadcasts, List.getElem?_cons_zero, Option.some.injEq] at hq
      subst hq
      simp only [Nat.add_zero] at herr
      rw [h] at herr
      cases herr
    | succ j => simp [broadcasts] at hq
  | case4 retry filterMap params rqpJSON recvs h fm1 hne =>
    rw [retryLoop_done a job ex retry filterMap recvs h hne]
    intro i q err hq herr
    cases i with
    | zero =>
      simp only [broadcasts, List.getElem?_cons_zero, Option.some.injEq] at hq
      subst hq
      simp only [Nat.add_zero] at herr
      rw [h] at herr
      cases herr
    | succ j => simp [broadcasts] at hq

/-- When the transport accepts every broadcast, the loop returns the job it
was given. -/
theorem retryLoop_accepted (a : Agent) (job : Job) (ex : Execution) (retry : Nat)
    (filterMap : List String)
    (hacc : ∀ k name payload params, ∃ recvs, a.Query k name payload params = Except.ok recvs) :
    (retryLoop a job ex retry filterMap).2 = Result.returned job := by
  induction retry, filterMap using retryLoop.induct a job ex with
  | case1 retry filterMap params rqpJSON err h =>
    obtain ⟨recvs, hok⟩ := hacc retry QueryRunJob rqpJSON params
    rw [h] at hok
    cases hok
  | case2 retry filterMap params rqpJSON recvs h fm1 hne hr ih =>
    rw [retryLoop_again a job ex retry filterMap recvs h hne hr]
    exact ih
  | case3 retry filterMap params rqpJSON recvs h fm1 hne hr =>
    rw [retryLoop_giveUp a job ex retry filterMap recvs h hne hr]
  | case4 retry filterMap params rqpJSON recvs h fm1 hne =>
    rw [retryLoop_done a job ex retry filterMap recvs h hne]

/-- A key that no receive loop ever deletes keeps the loop going until the
retry counter reaches 10. -/
theorem retryLoop_stuck (a : Agent) (job : Job) (ex : Execution) (retry : Nat)
    (filterMap : List String) (m : String)
    (hacc : ∀ k name payload params, ∃ recvs, a.Query k name payload params = Except.ok recvs)
    (hnever : ∀ k name payload params recvs,
      a.Query k name payload params = Except.ok recvs → m ∉ deletedKeys recvs)
    (hm : m ∈ filterMap) (hretry : retry ≤ 10) :
    (broadcasts (retryLoop a job ex retry filterMap).1).length + retry = 11 := by
  induction retry, filterMap using retryLoop.induct a job ex with
  | case1 retry filterMap params rqpJSON err h =>
    obtain ⟨recvs, hok⟩ := hacc retry QueryRunJob rqpJSON params
    rw [h] at hok
    cases hok
  | case2 retry filterMap params rqpJSON recvs h fm1 hne hr ih =>
    rw [retryLoop_again a job ex retry filterMap recvs h hne hr]
    have hm2 : m ∈ recvLoop filterMap recvs :=
      (mem_recvLoop filterMap recvs m).mpr ⟨hm, hnever _ _ _ _ recvs h⟩
    have ih2 : (broadcasts (retryLoop a job ex (retry + 1)
        (recvLoop filterMap recvs)).1).length + (retry + 1) = 11 := ih hm2 (by omega)
    simp only [broadcasts, List.length_cons]
    omega
  | case3 retry filterMap params rqpJSON recvs h fm1 hne hr =>
    rw [retryLoop_giveUp a job ex retry filterMap recvs h hne hr]
    simp only [broadcasts, List.length_cons, List.length_nil]
    omega
  | case4 retry filterMap params rqpJSON recvs h fm1 hne =>
    have hm2 : m ∈ recvLoop filterMap recvs :=
      (mem_recvLoop filterMap recvs m).mpr ⟨hm, hnever _ _ _ _ recvs h⟩
    exact absurd (List.length_pos_of_mem hm2) hne

/-! ## The steps before the loop -/

theorem broadcasts_append (l1 l2 : List Call) :
    broadcasts (l1 ++ l2) = broadcasts l1 ++ broadcasts l2 := by
  induction l1 with
  | nil => rfl
  | cons c rest ih => cases c <;> simp [broadcasts, ih]

theorem broadcasts_eq_nil (l : List Call) (h : ∀ c ∈ l, c.isQuery = false) :
    broadcasts l = [] := by
  induction l with
  | nil => rfl
  | cons c rest ih =>
    have hc := h c (List.mem_cons_self c rest)
    have hrest := ih (fun d hd => h d (List.mem_cons_of_mem c hd))
    cases c <;> simp_all [broadcasts, Call.isQuery]

/-- The refresh step calls the store and the scheduler only. -/
theorem refreshJob_log (a : Agent) (jobName : String) :
    ∀ c ∈ (refreshJob a jobName).1,
      c = Call.GetJob jobName ∨ c = Call.GetEntry jobName ∨ ∃ j, c = Call.applySetJob j := by
  intro c hc
  unfold refreshJob at hc
  cases hj : a.GetJob jobName with
  | error err =>
    simp only [hj, List.mem_singleton] at hc
    exact Or.inl hc
  | ok job =>
    simp only [hj] at hc
    by_cases hp : job.ParentJob = ""
    · simp only [hp, if_true] at hc
      cases he : a.GetEntry jobName with
      | none =>
        simp only [he, List.mem_cons, List.mem_singleton, List.not_mem_nil, or_false] at hc
        tauto
      | some e =>
        simp only [he] at hc
        split at hc <;>
          (simp only [List.mem_cons, List.mem_singleton, List.not_mem_nil, or_false] at hc
           rcases hc with h | h | h
           · exact Or.inl h
           · exact Or.inr (Or.inl h)
           · exact Or.inr (Or.inr ⟨_, h⟩))
    · simp only [hp, if_false, List.mem_singleton] at hc
      exact Or.inl hc

theorem refreshJob_no_query (a : Agent) (jobName : String) :
    ∀ c ∈ (refreshJob a jobName).1, c.isQuery = false := by
  intro c hc
  rcases refreshJob_log a jobName c hc with h | h | ⟨j, h⟩ <;> subst h <;> rfl

/-- Building the map calls the target selector at most, and only on a first
attempt. -/
theorem buildFilterMap_log (a : Agent) (job : Job) (ex : Execution) :
    (buildFilterMap a job ex).1 = [] ∧ 1 < ex.Attempt ∨
      (buildFilterMap a job ex).1 = [Call.processFilteredNodes job] ∧ ex.Attempt ≤ 1 := by
  unfold buildFilterMap
  split
  · rename_i h
    split <;> exact Or.inr ⟨rfl, h⟩
  · rename_i h
    exact Or.inl ⟨rfl, by omega⟩

theorem buildFilterMap_no_query (a : Agent) (job : Job) (ex : Execution) :
    ∀ c ∈ (buildFilterMap a job ex).1, c.isQuery = false := by
  intro c hc
  rcases buildFilterMap_log a job ex with ⟨h, _⟩ | ⟨h, _⟩
  · simp [h] at hc
  · simp only [h, List.mem_singleton] at hc
    subst hc
    rfl

theorem buildFilterMap_nodup (a : Agent) (job : Job) (ex : Execution)
    (filterMap : List String) (h : (buildFilterMap a job ex).2 = Except.ok filterMap) :
    filterMap.Nodup := by
  unfold buildFilterMap at h
  split at h
  · split at h
    · cases h
    · simp only [Except.ok.injEq] at h
      subst h
      exact foldl_mapSet_nodup _ [] List.nodup_nil
  · simp only [Except.ok.injEq] at h
    subst h
    exact List.nodup_singleton _

/-- On a retry the map is the single recorded node. -/
theorem buildFilterMap_retry (a : Agent) (job : Job) (ex : Execution)
    (h : 1 < ex.Attempt) : buildFilterMap a job ex = ([], Except.ok [ex.NodeName]) := by
  unfold buildFilterMap
  rw [if_neg (by omega)]

/-- `RunQuery` once the refresh step and the map building have succeeded. -/
theorem RunQuery_dispatch (a : Agent) (jobName : String) (ex : Execution) (job : Job)
    (filterMap : List String) (hr : (refreshJob a jobName).2 = Except.ok job)
    (hb : (buildFilterMap a job ex).2 = Except.ok filterMap) :
    RunQuery a jobName ex =
      ((refreshJob a jobName).1 ++ (buildFilterMap a job ex).1
          ++ (retryLoop a job ex 0 filterMap).1,
        (retryLoop a job ex 0 filterMap).2) := by
  unfold RunQuery
  rcases hrj : refreshJob a jobName with ⟨log, r⟩
  rw [hrj] at hr
  simp only at hr
  subst hr
  rcases hbf : buildFilterMap a job ex with ⟨log2, r2⟩
  rw [hbf] at hb
  simp only at hb
  subst hb
  simp only [hbf]

/-- `RunQuery` when the refresh step fails. -/
theorem RunQuery_refresh_failed (a : Agent) (jobName : String) (ex : Execution)
    (err : DispatchError) (hr : (refreshJob a jobName).2 = Except.error err) :
    RunQuery a jobName ex = ((refreshJob a jobName).1, Result.failed err) := by
  unfold RunQuery
  rcases hrj : refreshJob a jobName with ⟨log, r⟩
  rw [hrj] at hr
  simp only at hr
  subst hr
  rfl

/-- `RunQuery` when the target selector fails. -/
theorem RunQuery_select_failed (a : Agent) (jobName : String) (ex : Execution) (job : Job)
    (err : DispatchError) (hr : (refreshJob a jobName).2 = Except.ok job)
    (hb : (buildFilterMap a job ex).2 = Except.error err) :
    RunQuery a jobName ex =
      ((refreshJob a jobName).1 ++ (buildFilterMap a job ex).1, Result.failed err) := by
  unfold RunQuery
  rcases hrj : refreshJob a jobName with ⟨log, r⟩
  rw [hrj] at hr
  simp only at hr
  subst hr
  rcases hbf : buildFilterMap a job ex with ⟨log2, r2⟩
  rw [hbf] at hb
  simp only at hb
  subst hb
  simp only [hbf]

/-- The broadcasts of a `RunQuery` that reaches the loop are those of the
loop. -/
theorem RunQuery_broadcasts (a : Agent) (jobName : String) (ex : Execution) (job : Job)
    (filterMap : List String) (hr : (refreshJob a jobName).2 = Except.ok job)
    (hb : (buildFilterMap a job ex).2 = Except.ok filterMap) :
    broadcasts (RunQuery a jobName ex).1 = broadcasts (retryLoop a job ex 0 filterMap).1 := by
  rw [RunQuery_dispatch a jobName ex job filterMap hr hb]
  simp only [broadcasts_append, broadcasts_eq_nil _ (refreshJob_no_query a jobName),
    broadcasts_eq_nil _ (buildFilterMap_no_query a job ex), List.nil_append]

/-- Either `RunQuery` stops before the loop, with an error and no broadcast,
or it runs the loop on a job and a map without repetition. -/
theorem RunQuery_cases (a : Agent) (jobName : String) (ex : Execution) :
    (broadcasts (RunQuery a jobName ex).1 = [] ∧
        ∃ err, (RunQuery a jobName ex).2 = Result.failed err) ∨
      ∃ job filterMap, (refreshJob a jobName).2 = Except.ok job ∧
        (buildFilterMap a job ex).2 = Except.ok filterMap := by
  cases hr : (refreshJob a jobName).2 with
  | error err =>
    left
    rw [RunQuery_refresh_failed a jobName ex err hr]
    exact ⟨broadcasts_eq_nil _ (refreshJob_no_query a jobName), err, rfl⟩
  | ok job =>
    cases hb : (buildFilterMap a job ex).2 with
    | error err =>
      left
      rw [RunQuery_select_failed a jobName ex job err hr hb]
      refine ⟨?_, err, rfl⟩
      simp only [broadcasts_append, broadcasts_eq_nil _ (refreshJob_no_query a jobName),
        broadcasts_eq_nil _ (buildFilterMap_no_query a job ex), List.nil_append]
    | ok filterMap => exact Or.inr ⟨job, filterMap, rfl, hb⟩

/-! ## The refresh step, case by case -/

theorem refreshJob_unreadable (a : Agent) (jobName : String) (err : String)
    (h : a.GetJob jobName = Except.error err) :
    refreshJob a jobName =
      ([Call.GetJob jobName],
        Except.error (DispatchError.retrievingJobFromStore jobName err)) := by
  unfold refreshJob
  simp only [h]

theorem refreshJob_child (a : Agent) (jobName : String) (job : Job)
    (h : a.GetJob jobName = Except.ok job) (hp : job.ParentJob ≠ "") :
    refreshJob a jobName = ([Call.GetJob jobName], Except.ok job) := by
  unfold refreshJob
  simp only [h, hp, if_false]

theorem refreshJob_unscheduled (a : Agent) (jobName : String) (job : Job)
    (h : a.GetJob jobName = Except.ok job) (hp : job.ParentJob = "")
    (he : a.GetEntry jobName = none) :
    refreshJob a jobName =
      ([Call.GetJob jobName, Call.GetEntry jobName],
        Except.error (DispatchError.retrievingJobFromScheduler jobName)) := by
  unfold refreshJob
  simp only [h, he, if_pos hp]

theorem refreshJob_unstored (a : Agent) (jobName : String) (job : Job) (e : Entry)
    (err : String) (h : a.GetJob jobName = Except.ok job) (hp : job.ParentJob = "")
    (he : a.GetEntry jobName = some e)
    (hs : a.applySetJob { job with Next := e.Next } = some err) :
    refreshJob a jobName =
      ([Call.GetJob jobName, Call.GetEntry jobName,
          Call.applySetJob { job with Next := e.Next }],
        Except.error (DispatchError.storingJob jobName err)) := by
  unfold refreshJob
  simp only [h, he, if_pos hp, hs]

theorem refreshJob_stored (a : Agent) (jobName : String) (job : Job) (e : Entry)
    (h : a.GetJob jobName = Except.ok job) (hp : job.ParentJob = "")
    (he : a.GetEntry jobName = some e)
    (hs : a.applySetJob { job with Next := e.Next } = none) :
    refreshJob a jobName =
      ([Call.GetJob jobName, Call.GetEntry jobName,
          Call.applySetJob { job with Next := e.Next }],
        Except.ok { job with Next := e.Next }) := by
  unfold refreshJob
  simp only [h, he, if_pos hp, hs]

/-! ## Before and after the first broadcast -/

theorem beforeBroadcast_append_query (pre rest : List Call) (name payload : String)
    (params : QueryParam) (h : ∀ c ∈ pre, c.isQuery = false) :
    beforeBroadcast (pre ++ Call.Query name payload params :: rest) = pre := by
  induction pre with
  | nil => simp [beforeBroadcast, Call.isQuery]
  | cons c cs ih =>
    have hc := h c (List.mem_cons_self c cs)
    have := ih (fun d hd => h d (List.mem_cons_of_mem c hd))
    simp only [beforeBroadcast] at this ⊢
    simp [List.takeWhile_cons, hc, this]

theorem fromBroadcast_append_query (pre rest : List Call) (name payload : String)
    (params : QueryParam) (h : ∀ c ∈ pre, c.isQuery = false) :
    fromBroadcast (pre ++ Call.Query name payload params :: rest)
      = Call.Query name payload params :: rest := by
  induction pre with
  | nil => simp [fromBroadcast, Call.isQuery]
  | cons c cs ih =>
    have hc := h c (List.mem_cons_self c cs)
    have := ih (fun d hd => h d (List.mem_cons_of_mem c hd))
    simp only [fromBroadcast] at this ⊢
    simp [List.dropWhile_cons, hc, this]

theorem fromBroadcast_no_query (l : List Call) (h : ∀ c ∈ l, c.isQuery = false) :
    fromBroadcast l = [] := by
  induction l with
  | nil => rfl
  | cons c cs ih =>
    have hc := h c (List.mem_cons_self c cs)
    have := ih (fun d hd => h d (List.mem_cons_of_mem c hd))
    simp only [fromBroadcast] at this ⊢
    simp [List.dropWhile_cons, hc, this]

/-- The log of a `RunQuery` that reaches the loop splits at its first
broadcast into the calls of the steps before the loop and the log of the
loop. -/
theorem RunQuery_split (a : Agent) (jobName : String) (ex : Execution) (job : Job)
    (filterMap : List String) (hr : (refreshJob a jobName).2 = Except.ok job)
    (hb : (buildFilterMap a job ex).2 = Except.ok filterMap) :
    beforeBroadcast (RunQuery a jobName ex).1
        = (refreshJob a jobName).1 ++ (buildFilterMap a job ex).1 ∧
      fromBroadcast (RunQuery a jobName ex).1 = (retryLoop a job ex 0 filterMap).1 := by
  rw [RunQuery_dispatch a jobName ex job filterMap hr hb]
  obtain ⟨rest, hrest⟩ := retryLoop_head a job ex 0 filterMap
  have hpre : ∀ c ∈ (refreshJob a jobName).1 ++ (buildFilterMap a job ex).1,
      c.isQuery = false := by
    intro c hc
    rcases List.mem_append.mp hc with h | h
    · exact refreshJob_no_query a jobName c h
    · exact buildFilterMap_no_query a job ex c h
  simp only [hrest]
  exact ⟨beforeBroadcast_append_query _ _ _ _ _ hpre, fromBroadcast_append_query _ _ _ _ _ hpre⟩

/-- From the first broadcast on, the log holds broadcasts and at most the
final error line. -/
theorem RunQuery_fromBroadcast (a : Agent) (jobName : String) (ex : Execution) :
    ∀ c ∈ fromBroadcast (RunQuery a jobName ex).1,
      c.isQuery = true ∨ ∃ nodes, c = Call.logError nodes := by
  intro c hc
  cases hr : (refreshJob a jobName).2 with
  | error err =>
    rw [RunQuery_refresh_failed a jobName ex err hr,
      fromBroadcast_no_query _ (refreshJob_no_query a jobName)] at hc
    simp at hc
  | ok job =>
    cases hb : (buildFilterMap a job ex).2 with
    | error err =>
      rw [RunQuery_select_failed a jobName ex job err hr hb, fromBroadcast_no_query] at hc
      · simp at hc
      · intro d hd
        rcases List.mem_append.mp hd with h | h
        · exact refreshJob_no_query a jobName d h
        · exact buildFilterMap_no_query a job ex d h
    | ok filterMap =>
      rw [(RunQuery_split a jobName ex job filterMap hr hb).2] at hc
      exact retryLoop_log_shape a job ex 0 filterMap c hc

theorem eq_singleton_of_nodup (l : List String) (x : String) (h1 : ∀ n ∈ l, n ∈ [x])
    (h2 : l.Nodup) (h3 : l ≠ []) : l = [x] := by
  match l, h1, h2, h3 with
  | [], _, _, h3 => exact absurd rfl h3
  | [y], h1, _, _ =>
    have := h1 y (List.mem_singleton_self y)
    simp only [List.mem_singleton] at this
    rw [this]
  | y :: z :: rest, h1, h2, _ =>
    have hy := h1 y (List.mem_cons_self _ _)
    have hz := h1 z (List.mem_cons_of_mem _ (List.mem_cons_self _ _))
    simp only [List.mem_singleton] at hy hz
    subst hy
    subst hz
    simp at h2

/-! ## The claims -/

/-- C1: on a retry (`Attempt > 1`) whose refresh step succeeds, the target
selector is never called, a first broadcast is issued, and every broadcast of
the call, first or retry, has filter nodes `[ex.NodeName]`, whatever the job,
its tags and the members are. -/
theorem C1_retry_broadcasts_to_recorded_node (a : Agent) (jobName : String)
    (ex : Execution) (job : Job) (hAttempt : 1 < ex.Attempt)
    (hRefresh : (refreshJob a jobName).2 = Except.ok job) :
    (∀ j, Call.processFilteredNodes j ∉ (RunQuery a jobName ex).1) ∧
      (∃ q rest, broadcasts (RunQuery a jobName ex).1 = q :: rest) ∧
      (∀ q ∈ broadcasts (RunQuery a jobName ex).1, q.params.FilterNodes = [ex.NodeName]) := by
  have hb : (buildFilterMap a job ex).2 = Except.ok [ex.NodeName] := by
    rw [buildFilterMap_retry a job ex hAttempt]
  refine ⟨?_, ?_, ?_⟩
  · intro j hj
    rw [RunQuery_dispatch a jobName ex job _ hRefresh hb,
      buildFilterMap_retry a job ex hAttempt] at hj
    simp only [List.append_nil, List.mem_append] at hj
    rcases hj with hj | hj
    · rcases refreshJob_log a jobName _ hj with h | h | ⟨j2, h⟩ <;> cases h
    · rcases retryLoop_log_shape a job ex 0 _ _ hj with h | ⟨nodes, h⟩
      · simp [Call.isQuery] at h
      · cases h
  · rw [RunQuery_broadcasts a jobName ex job _ hRefresh hb]
    obtain ⟨rest, h⟩ := retryLoop_broadcasts_head a job ex 0 [ex.NodeName]
    exact ⟨_, rest, h⟩
  · rw [RunQuery_broadcasts a jobName ex job _ hRefresh hb]
    intro q hq
    obtain ⟨i, hi⟩ := List.mem_iff_getElem?.mp hq
    obtain ⟨_, _, _, h4, h5, h6⟩ := retryLoop_index a job ex 0 [ex.NodeName] i q hi
    exact eq_singleton_of_nodup _ _ h4 (h5 (List.nodup_singleton _)) (h6 (by simp))

theorem C1_retry_broadcasts_to_recorded_node_witness :
    (∀ j, Call.processFilteredNodes j ∉
        (RunQuery demoAgent "j" { JobName := "j", Attempt := 3, NodeName := "n7" }).1) ∧
      (∃ q rest, broadcasts
        (RunQuery demoAgent "j" { JobName := "j", Attempt := 3, NodeName := "n7" }).1
          = q :: rest) ∧
      (∀ q ∈ broadcasts
        (RunQuery demoAgent "j" { JobName := "j", Attempt := 3, NodeName := "n7" }).1,
        q.params.FilterNodes = ["n7"]) :=
  C1_retry_broadcasts_to_recorded_node demoAgent "j"
    { JobName := "j", Attempt := 3, NodeName := "n7" }
    { Name := "j", ParentJob := "", Next := 42, Tags := [] } (by decide)
    (by simp [refreshJob, demoAgent])

/-- C2: for a job read from the store, (1) when it has no parent and the
scheduler has an entry for its name, a `RunQuery` that returns a job returns
the job read with `Next` set to the entry's `Next`, that job was accepted by
`applySetJob`, and the `applySetJob` call on it is logged before the first
broadcast; (2) no `applySetJob` call is ever logged from the first broadcast
on; (3) when a broadcast is issued, an `applySetJob` call precedes it if and
only if the job has no parent. -/
theorem C2_next_stored_before_first_broadcast (a : Agent) (jobName : String)
    (ex : Execution) (job : Job) (hJob : a.GetJob jobName = Except.ok job) :
    (∀ e j, job.ParentJob = "" → a.GetEntry jobName = some e →
        (RunQuery a jobName ex).2 = Result.returned j →
        j.Next = e.Next ∧ j = { job with Next := e.Next } ∧ a.applySetJob j = none ∧
        Call.applySetJob j ∈ beforeBroadcast (RunQuery a jobName ex).1 ∧
        broadcasts (RunQuery a jobName ex).1 ≠ []) ∧
      (∀ j, Call.applySetJob j ∉ fromBroadcast (RunQuery a jobName ex).1) ∧
      (broadcasts (RunQuery a jobName ex).1 ≠ [] →
        ((∃ j, Call.applySetJob j ∈ beforeBroadcast (RunQuery a jobName ex).1)
          ↔ job.ParentJob = "")) := by
  refine ⟨?_, ?_, ?_⟩
  · intro e j hp he hres
    cases hs : a.applySetJob { job with Next := e.Next } with
    | some err =>
      have hr := refreshJob_unstored a jobName job e err hJob hp he hs
      rw [RunQuery_refresh_failed a jobName ex _ (by rw [hr])] at hres
      cases hres
    | none =>
      have hr := refreshJob_stored a jobName job e hJob hp he hs
      have hr2 : (refreshJob a jobName).2 = Except.ok { job with Next := e.Next } := by
        rw [hr]
      cases hb : (buildFilterMap a { job with Next := e.Next } ex).2 with
      | error err =>
        rw [RunQuery_select_failed a jobName ex _ err hr2 hb] at hres
        cases hres
      | ok filterMap =>
        have hj : j = { job with Next := e.Next } := by
          rw [RunQuery_dispatch a jobName ex _ filterMap hr2 hb] at hres
          rcases retryLoop_result a { job with Next := e.Next } ex 0 filterMap with h | ⟨err, h⟩
          · rw [h] at hres
            cases hres
            rfl
          · rw [h] at hres
            cases hres
        subst hj
        refine ⟨rfl, rfl, hs, ?_, ?_⟩
        · rw [(RunQuery_split a jobName ex _ filterMap hr2 hb).1, hr]
          simp
        · rw [RunQuery_broadcasts a jobName ex _ filterMap hr2 hb]
          obtain ⟨rest, h⟩ := retryLoop_broadcasts_head a { job with Next := e.Next } ex 0
            filterMap
          rw [h]
          exact List.cons_ne_nil _ _
  · intro j hj
    rcases RunQuery_fromBroadcast a jobName ex _ hj with h | ⟨nodes, h⟩
    · simp [Call.isQuery] at h
    · cases h
  · intro hne
    rcases RunQuery_cases a jobName ex with ⟨hnil, _⟩ | ⟨job2, filterMap, hr, hb⟩
    · exact absurd hnil hne
    · rw [(RunQuery_split a jobName ex job2 filterMap hr hb).1]
      by_cases hp : job.ParentJob = ""
      · simp only [hp, iff_true]
        cases he : a.GetEntry jobName with
        | none =>
          rw [refreshJob_unscheduled a jobName job hJob hp he] at hr
          cases hr
        | some e =>
          cases hs : a.applySetJob { job with Next := e.Next } with
          | some err =>
            rw [refreshJob_unstored a jobName job e err hJob hp he hs] at hr
            cases hr
          | none =>
            rw [refreshJob_stored a jobName job e hJob hp he hs]
            exact ⟨{ job with Next := e.Next }, by simp⟩
      · simp only [hp, iff_false, not_exists]
        intro j hj
        rw [refreshJob_child a jobName job hJob hp] at hj
        rcases List.mem_append.mp hj with h | h
        · simp at h
        · rcases buildFilterMap_log a job2 ex with ⟨h2, _⟩ | ⟨h2, _⟩
          · rw [h2] at h
            simp at h
          · rw [h2] at h
            simp at h

theorem C2_next_stored_before_first_broadcast_witness :
    (RunQuery demoAgent "j" { JobName := "j", Attempt := 1, NodeName := "" }).2
        = Result.returned { Name := "j", ParentJob := "", Next := 42, Tags := [] } ∧
      ((42 : Nat) = 42 ∧
        ({ Name := "j", ParentJob := "", Next := 42, Tags := [] } : Job)
          = { Name := "j", ParentJob := "", Next := 42, Tags := [] } ∧
        demoAgent.applySetJob { Name := "j", ParentJob := "", Next := 42, Tags := [] } = none ∧
        Call.applySetJob { Name := "j", ParentJob := "", Next := 42, Tags := [] } ∈
          beforeBroadcast
            (RunQuery demoAgent "j" { JobName := "j", Attempt := 1, NodeName := "" }).1 ∧
        broadcasts (RunQuery demoAgent "j" { JobName := "j", Attempt := 1, NodeName := "" }).1
          ≠ []) :=
  have hres : (RunQuery demoAgent "j" { JobName := "j", Attempt := 1, NodeName := "" }).2
      = Result.returned { Name := "j", ParentJob := "", Next := 42, Tags := [] } := by
    simp [RunQuery, refreshJob, demoAgent, buildFilterMap, retryLoop, queryParams,
      queryPayload, recvLoop, mapSet, mapDelete]
  ⟨hres, (C2_next_stored_before_first_broadcast demoAgent "j"
    { JobName := "j", Attempt := 1, NodeName := "" }
    { Name := "j", ParentJob := "", Next := 5, Tags := [] }
    (by simp [demoAgent])).1 { Next := 42 }
    { Name := "j", ParentJob := "", Next := 42, Tags := [] } rfl (by simp [demoAgent]) hres⟩

/-- C3: `RunQuery` stops with an error, no job and no broadcast when a step
before the loop fails: (1) the store cannot read the job (the error wraps the
store error); (2) the job has no parent and the scheduler has no entry for its
name; (3) `applySetJob` refuses the job with the new `Next` (the error wraps
its error); (4) on a first attempt (`Attempt <= 1`) after a successful refresh
the target selector fails (the error wraps the selector error). -/
theorem C3_failure_before_dispatch_aborts (a : Agent) (jobName : String) (ex : Execution) :
    (∀ err, a.GetJob jobName = Except.error err →
        (RunQuery a jobName ex).2
          = Result.failed (DispatchError.retrievingJobFromStore jobName err) ∧
        broadcasts (RunQuery a jobName ex).1 = []) ∧
      (∀ job, a.GetJob jobName = Except.ok job → job.ParentJob = "" →
        a.GetEntry jobName = none →
        (RunQuery a jobName ex).2
          = Result.failed (DispatchError.retrievingJobFromScheduler jobName) ∧
        broadcasts (RunQuery a jobName ex).1 = []) ∧
      (∀ job e err, a.GetJob jobName = Except.ok job → job.ParentJob = "" →
        a.GetEntry jobName = some e →
        a.applySetJob { job with Next := e.Next } = some err →
        (RunQuery a jobName ex).2 = Result.failed (DispatchError.storingJob jobName err) ∧
        broadcasts (RunQuery a jobName ex).1 = []) ∧
      (∀ job err, (refreshJob a jobName).2 = Except.ok job → ex.Attempt ≤ 1 →
        a.processFilteredNodes job = Except.error err →
        (RunQuery a jobName ex).2
          = Result.failed (DispatchError.processingFilteredNodes err) ∧
        broadcasts (RunQuery a jobName ex).1 = []) := by
  refine ⟨?_, ?_, ?_, ?_⟩
  · intro err h
    have hr := refreshJob_unreadable a jobName err h
    rw [RunQuery_refresh_failed a jobName ex _ (by rw [hr])]
    exact ⟨rfl, broadcasts_eq_nil _ (refreshJob_no_query a jobName)⟩
  · intro job h hp he
    have hr := refreshJob_unscheduled a jobName job h hp he
    rw [RunQuery_refresh_failed a jobName ex _ (by rw [hr])]
    exact ⟨rfl, broadcasts_eq_nil _ (refreshJob_no_query a jobName)⟩
  · intro job e err h hp he hs
    have hr := refreshJob_unstored a jobName job e err h hp he hs
    rw [RunQuery_refresh_failed a jobName ex _ (by rw [hr])]
    exact ⟨rfl, broadcasts_eq_nil _ (refreshJob_no_query a jobName)⟩
  · intro job err hr hA hsel
    have hb : (buildFilterMap a job ex).2
        = Except.error (DispatchError.processingFilteredNodes err) := by
      unfold buildFilterMap
      simp only [hA, if_true, hsel]
    rw [RunQuery_select_failed a jobName ex job _ hr hb]
    refine ⟨rfl, ?_⟩
    simp only [broadcasts_append, broadcasts_eq_nil _ (refreshJob_no_query a jobName),
      broadcasts_eq_nil _ (buildFilterMap_no_query a job ex), List.nil_append]

theorem C3_failure_before_dispatch_aborts_witness :
    ((RunQuery demoAgent "gone" { JobName := "gone", Attempt := 1, NodeName := "" }).2
          = Result.failed (DispatchError.retrievingJobFromStore "gone" "not found") ∧
        broadcasts (RunQuery demoAgent "gone"
          { JobName := "gone", Attempt := 1, NodeName := "" }).1 = []) ∧
      ((RunQuery demoAgent "orphan" { JobName := "orphan", Attempt := 1, NodeName := "" }).2
          = Result.failed (DispatchError.retrievingJobFromScheduler "orphan") ∧
        broadcasts (RunQuery demoAgent "orphan"
          { JobName := "orphan", Attempt := 1, NodeName := "" }).1 = []) ∧
      ((RunQuery demoAgent "ro" { JobName := "ro", Attempt := 1, NodeName := "" }).2
          = Result.failed (DispatchError.storingJob "ro" "not leader") ∧
        broadcasts (RunQuery demoAgent "ro"
          { JobName := "ro", Attempt := 1, NodeName := "" }).1 = []) ∧
      ((RunQuery demoAgent "badtag" { JobName := "badtag", Attempt := 1, NodeName := "" }).2
          = Result.failed (DispatchError.processingFilteredNodes "bad tag expression") ∧
        broadcasts (RunQuery demoAgent "badtag"
          { JobName := "badtag", Attempt := 1, NodeName := "" }).1 = []) :=
  ⟨(C3_failure_before_dispatch_aborts demoAgent "gone"
      { JobName := "gone", Attempt := 1, NodeName := "" }).1 "not found"
      (by simp [demoAgent]),
    (C3_failure_before_dispatch_aborts demoAgent "orphan"
      { JobName := "orphan", Attempt := 1, NodeName := "" }).2.1
      { Name := "orphan", ParentJob := "", Next := 5, Tags := [] }
      (by simp [demoAgent]) rfl (by simp [demoAgent]),
    (C3_failure_before_dispatch_aborts demoAgent "ro"
      { JobName := "ro", Attempt := 1, NodeName := "" }).2.2.1
      { Name := "ro", ParentJob := "", Next := 5, Tags := [] } { Next := 42 } "not leader"
      (by simp [demoAgent]) rfl (by simp [demoAgent]) (by simp [demoAgent]),
    (C3_failure_before_dispatch_aborts demoAgent "badtag"
      { JobName := "badtag", Attempt := 1, NodeName := "" }).2.2.2
      { Name := "badtag", ParentJob := "", Next := 42, Tags := [("t", "v:abc")] }
      "bad tag expression"
      (by simp [refreshJob, demoAgent]) (by decide) (by simp [demoAgent])⟩

/-- C4: for a job with a parent, `RunQuery` never calls the scheduler nor
`applySetJob`; the refresh step hands on the job exactly as the store returned
it (same `Next`), any job returned is that job, and when the target selector
(on a first attempt) and the transport do not fail, `RunQuery` calls the
selector on that job (first attempt), issues a broadcast and returns that job,
whether or not the scheduler has an entry. -/
theorem C4_child_job_skips_refresh (a : Agent) (jobName : String) (ex : Execution)
    (job : Job) (hJob : a.GetJob jobName = Except.ok job) (hChild : job.ParentJob ≠ "") :
    (∀ n, Call.GetEntry n ∉ (RunQuery a jobName ex).1) ∧
      (∀ j, Call.applySetJob j ∉ (RunQuery a jobName ex).1) ∧
      (refreshJob a jobName).2 = Except.ok job ∧
      (∀ j, (RunQuery a jobName ex).2 = Result.returned j → j = job ∧ j.Next = job.Next) ∧
      ((ex.Attempt ≤ 1 → ∃ fn, a.processFilteredNodes job = Except.ok fn) →
        (∀ k name payload params, ∃ recvs,
          a.Query k name payload params = Except.ok recvs) →
        (RunQuery a jobName ex).2 = Result.returned job ∧
          broadcasts (RunQuery a jobName ex).1 ≠ [] ∧
          (ex.Attempt ≤ 1 → Call.processFilteredNodes job ∈ (RunQuery a jobName ex).1)) := by
  have hr := refreshJob_child a jobName job hJob hChild
  have hr2 : (refreshJob a jobName).2 = Except.ok job := by rw [hr]
  have hlog : ∀ c ∈ (RunQuery a jobName ex).1,
      c = Call.GetJob jobName ∨ c = Call.processFilteredNodes job ∨ c.isQuery = true ∨
        ∃ nodes, c = Call.logError nodes := by
    intro c hc
    have hpre : ∀ d ∈ (refreshJob a jobName).1 ++ (buildFilterMap a job ex).1,
        d = Call.GetJob jobName ∨ d = Call.processFilteredNodes job := by
      intro d hd
      rw [hr] at hd
      rcases List.mem_append.mp hd with h | h
      · simp only [List.mem_singleton] at h
        exact Or.inl h
      · rcases buildFilterMap_log a job ex with ⟨h2, _⟩ | ⟨h2, _⟩
        · rw [h2] at h
          simp at h
        · rw [h2] at h
          simp only [List.mem_singleton] at h
          exact Or.inr h
    cases hb : (buildFilterMap a job ex).2 with
    | error err =>
      rw [RunQuery_select_failed a jobName ex job err hr2 hb] at hc
      rcases hpre c hc with h | h
      · exact Or.inl h
      · exact Or.inr (Or.inl h)
    | ok filterMap =>
      rw [RunQuery_dispatch a jobName ex job filterMap hr2 hb] at hc
      rcases List.mem_append.mp hc with h | h
      · rcases hpre c h with h | h
        · exact Or.inl h
        · exact Or.inr (Or.inl h)
      · exact Or.inr (Or.inr (retryLoop_log_shape a job ex 0 filterMap c h))
  refine ⟨?_, ?_, hr2, ?_, ?_⟩
  · intro n hn
    rcases hlog _ hn with h | h | h | ⟨nodes, h⟩
    · cases h
    · cases h
    · simp [Call.isQuery] at h
    · cases h
  · intro j hj
    rcases hlog _ hj with h | h | h | ⟨nodes, h⟩
    · cases h
    · cases h
    · simp [Call.isQuery] at h
    · cases h
  · intro j hres
    cases hb : (buildFilterMap a job ex).2 with
    | error err =>
      rw [RunQuery_select_failed a jobName ex job err hr2 hb] at hres
      cases hres
    | ok filterMap =>
      rw [RunQuery_dispatch a jobName ex job filterMap hr2 hb] at hres
      rcases retryLoop_result a job ex 0 filterMap with h | ⟨err, h⟩
      · rw [h] at hres
        cases hres
        exact ⟨rfl, rfl⟩
      · rw [h] at hres
        cases hres
  · intro hsel hacc
    have hb : ∃ filterMap, (buildFilterMap a job ex).2 = Except.ok filterMap := by
      unfold buildFilterMap
      by_cases hA : ex.Attempt ≤ 1
      · obtain ⟨fn, hfn⟩ := hsel hA
        simp only [hA, if_true, hfn]
        exact ⟨_, rfl⟩
      · simp only [hA, if_false]
        exact ⟨_, rfl⟩
    obtain ⟨filterMap, hb⟩ := hb
    refine ⟨?_, ?_, ?_⟩
    · rw [RunQuery_dispatch a jobName ex job filterMap hr2 hb]
      exact retryLoop_accepted a job ex 0 filterMap hacc
    · rw [RunQuery_broadcasts a jobName ex job filterMap hr2 hb]
      obtain ⟨rest, h⟩ := retryLoop_broadcasts_head a job ex 0 filterMap
      rw [h]
      exact List.cons_ne_nil _ _
    · intro hA
      rw [RunQuery_dispatch a jobName ex job filterMap hr2 hb]
      rcases buildFilterMap_log a job ex with ⟨_, h2⟩ | ⟨h2, _⟩
      · omega
      · rw [h2]
        simp

theorem C4_child_job_skips_refresh_witness :
    unscheduledAgent.GetEntry "child" = none ∧
      (RunQuery unscheduledAgent "child"
          { JobName := "child", Attempt := 1, NodeName := "" }).2
        = Result.returned { Name := "child", ParentJob := "parent", Next := 5, Tags := [] } ∧
      broadcasts (RunQuery unscheduledAgent "child"
          { JobName := "child", Attempt := 1, NodeName := "" }).1 ≠ [] ∧
      ((1 : Int) ≤ 1 →
        Call.processFilteredNodes
            { Name := "child", ParentJob := "parent", Next := 5, Tags := [] } ∈
          (RunQuery unscheduledAgent "child"
            { JobName := "child", Attempt := 1, NodeName := "" }).1) :=
  ⟨rfl,
    (C4_child_job_skips_refresh unscheduledAgent "child"
      { JobName := "child", Attempt := 1, NodeName := "" }
      { Name := "child", ParentJob := "parent", Next := 5, Tags := [] }
      (by simp [unscheduledAgent, demoAgent]) (by decide)).2.2.2.2
      (fun _ => ⟨["n1", "n2", "n3"], by simp [unscheduledAgent, demoAgent]⟩)
      (fun _ _ _ _ => ⟨_, rfl⟩)⟩

/-- One call of `RunQuery` issues at most 11 broadcasts, whatever the
collaborators do. -/
theorem RunQuery_at_most_eleven_broadcasts (a : Agent) (jobName : String)
    (ex : Execution) : (broadcasts (RunQuery a jobName ex).1).length ≤ 11 := by
  rcases RunQuery_cases a jobName ex with ⟨hnil, _⟩ | ⟨job, filterMap, hr, hb⟩
  · rw [hnil]
    exact Nat.zero_le _
  · rw [RunQuery_broadcasts a jobName ex job filterMap hr hb]
    have := retryLoop_count a job ex 0 filterMap (by omega)
    omega

/-- When the steps before the loop succeed and the transport accepts every
broadcast, `RunQuery` returns the refreshed job. -/
theorem RunQuery_returns_refreshed_job (a : Agent) (jobName : String) (ex : Execution)
    (job : Job) (filterMap : List String)
    (hr : (refreshJob a jobName).2 = Except.ok job)
    (hb : (buildFilterMap a job ex).2 = Except.ok filterMap)
    (hacc : ∀ k name payload params, ∃ recvs,
      a.Query k name payload params = Except.ok recvs) :
    (RunQuery a jobName ex).2 = Result.returned job := by
  rw [RunQuery_dispatch a jobName ex job filterMap hr hb]
  exact retryLoop_accepted a job ex 0 filterMap hacc

/-- A target with a non-empty name that never acks makes `RunQuery` issue
exactly 11 broadcasts and return the refreshed job. -/
theorem RunQuery_unacked_named_target (a : Agent) (jobName : String) (ex : Execution)
    (job : Job) (filterMap : List String) (m : String)
    (hr : (refreshJob a jobName).2 = Except.ok job)
    (hb : (buildFilterMap a job ex).2 = Except.ok filterMap)
    (hacc : ∀ k name payload params, ∃ recvs,
      a.Query k name payload params = Except.ok recvs)
    (hm : m ∈ filterMap) (hname : m ≠ "")
    (hnever : ∀ k name payload params recvs,
      a.Query k name payload params = Except.ok recvs → m ∉ ackedNames recvs) :
    (broadcasts (RunQuery a jobName ex).1).length = 11 ∧
      (RunQuery a jobName ex).2 = Result.returned job := by
  refine ⟨?_, RunQuery_returns_refreshed_job a jobName ex job filterMap hr hb hacc⟩
  rw [RunQuery_broadcasts a jobName ex job filterMap hr hb]
  have hdel : ∀ k name payload params recvs,
      a.Query k name payload params = Except.ok recvs → m ∉ deletedKeys recvs := by
    intro k name payload params recvs hq hmem
    rcases (mem_deletedKeys recvs m).mp hmem with h | ⟨h, _⟩
    · exact hnever k name payload params recvs hq h
    · exact hname h
  have := retryLoop_stuck a job ex 0 filterMap m hacc hdel hm (by omega)
  omega

/-- C5, the run that breaks it: a retry pinned to a node whose recorded name
is the empty string, on a cluster where nobody acks.  The only target never
acks, yet `RunQuery` issues one broadcast instead of 11, because the receive
on the closed ack channel hands the zero string to `delete`. -/
theorem C5_empty_name_target_stops_after_one_broadcast :
    buildFilterMap silentAgent { Name := "j", ParentJob := "", Next := 42, Tags := [] }
        { JobName := "j", Attempt := 2, NodeName := "" } = ([], Except.ok [""]) ∧
      silentAgent.Query = (fun _ _ _ _ => Except.ok [Recv.ackClosed]) ∧
      ackedNames [Recv.ackClosed] = [] ∧
      (broadcasts (RunQuery silentAgent "j"
        { JobName := "j", Attempt := 2, NodeName := "" }).1).length = 1 ∧
      (RunQuery silentAgent "j" { JobName := "j", Attempt := 2, NodeName := "" }).2
        = Result.returned { Name := "j", ParentJob := "", Next := 42, Tags := [] } := by
  refine ⟨?_, rfl, rfl, ?_, ?_⟩
  · simp [buildFilterMap]
  · simp [RunQuery, refreshJob, silentAgent, demoAgent, buildFilterMap, retryLoop,
      queryParams, queryPayload, recvLoop, mapSet, mapDelete, broadcasts]
  · simp [RunQuery, refreshJob, silentAgent, demoAgent, buildFilterMap, retryLoop,
      queryParams, queryPayload, recvLoop, mapSet, mapDelete]

/-- C6 as stated fails: when `n2` never acks, the second and the third
broadcast both go to `["n2"]`, so the later one is not a strict subset of the
earlier one. -/
theorem C6_strict_subset_counterexample :
    ¬ StrictlyShrinking
      (broadcasts (RunQuery demoAgent "j" { JobName := "j", Attempt := 1, NodeName := "" }).1) := by
  intro h
  have h12 := h 1
    { name := "run:job", payload := "@10.0.0.1:6868",
      params := { FilterNodes := ["n2"], RequestAck := true } }
    { name := "run:job", payload := "@10.0.0.1:6868",
      params := { FilterNodes := ["n2"], RequestAck := true } }
    (by simp [RunQuery, refreshJob, demoAgent, buildFilterMap, retryLoop, queryParams,
      queryPayload, recvLoop, mapSet, mapDelete, broadcasts, QueryRunJob])
    (by simp [RunQuery, refreshJob, demoAgent, buildFilterMap, retryLoop, queryParams,
      queryPayload, recvLoop, mapSet, mapDelete, broadcasts, QueryRunJob])
  obtain ⟨_, n, hn, hn2⟩ := h12
  exact hn2 hn

/-- C6 as amended: the filter nodes of a retry broadcast are a non-empty subset
of the filter nodes of the broadcast before it, namely what the receive loop
left of them; the subset need not be strict. -/
theorem C6_retry_targets_subset_of_previous (a : Agent) (jobName : String)
    (ex : Execution) (k : Nat) (q q2 : Broadcast)
    (hq : (broadcasts (RunQuery a jobName ex).1)[k]? = some q)
    (hq2 : (broadcasts (RunQuery a jobName ex).1)[k + 1]? = some q2) :
    (∀ n ∈ q2.params.FilterNodes, n ∈ q.params.FilterNodes) ∧
      q2.params.FilterNodes ≠ [] ∧
      ∃ recvs, a.Query k q.name q.payload q.params = Except.ok recvs ∧
        ∀ n, n ∈ q2.params.FilterNodes ↔
          n ∈ q.params.FilterNodes ∧ n ∉ deletedKeys recvs := by
  rcases RunQuery_cases a jobName ex with ⟨hnil, _⟩ | ⟨job, filterMap, hr, hb⟩
  · rw [hnil] at hq
    simp at hq
  · rw [RunQuery_broadcasts a jobName ex job filterMap hr hb] at hq hq2
    obtain ⟨recvs, h1, h2, h3⟩ := retryLoop_chain a job ex 0 filterMap k q q2 hq hq2
    rw [Nat.zero_add] at h1
    have hmem : ∀ n, n ∈ q2.params.FilterNodes ↔
        n ∈ q.params.FilterNodes ∧ n ∉ deletedKeys recvs := by
      intro n
      rw [h2.mem_iff, mem_recvLoop]
    exact ⟨fun n hn => ((hmem n).mp hn).1, h3, recvs, h1, hmem⟩

theorem C6_retry_targets_subset_of_previous_witness :
    (∀ n ∈ ["n2"], n ∈ ["n1", "n2", "n3"]) ∧ ["n2"] ≠ ([] : List String) ∧
      ∃ recvs, demoAgent.Query 0 "run:job" "@10.0.0.1:6868"
          { FilterNodes := ["n1", "n2", "n3"], RequestAck := true } = Except.ok recvs ∧
        ∀ n, n ∈ ["n2"] ↔ n ∈ ["n1", "n2", "n3"] ∧ n ∉ deletedKeys recvs :=
  C6_retry_targets_subset_of_previous demoAgent "j"
    { JobName := "j", Attempt := 1, NodeName := "" } 0
    { name := "run:job", payload := "@10.0.0.1:6868",
      params := { FilterNodes := ["n1", "n2", "n3"], RequestAck := true } }
    { name := "run:job", payload := "@10.0.0.1:6868",
      params := { FilterNodes := ["n2"], RequestAck := true } }
    (by simp [RunQuery, refreshJob, demoAgent, buildFilterMap, retryLoop, queryParams,
      queryPayload, recvLoop, mapSet, mapDelete, broadcasts, QueryRunJob])
    (by simp [RunQuery, refreshJob, demoAgent, buildFilterMap, retryLoop, queryParams,
      queryPayload, recvLoop, mapSet, mapDelete, broadcasts, QueryRunJob])

/-- What does hold of one attempt: when the empty name is not in the
residual, or the ack channel is never read closed, the residual at the end is
the residual at the start minus the names received on the ack channel. -/
theorem recvLoop_minus_acked (filterMap : List String) (recvs : List Recv)
    (h : "" ∉ filterMap ∨ Recv.ackClosed ∉ recvs) :
    recvLoop filterMap recvs
      = filterMap.filter (fun n => decide (n ∉ ackedNames recvs)) := by
  rw [recvLoop_eq_filter]
  apply List.filter_congr
  intro n hn
  have : n ∈ deletedKeys recvs ↔ n ∈ ackedNames recvs := by
    rw [mem_deletedKeys]
    constructor
    · rintro (h1 | ⟨h1, h2⟩)
      · exact h1
      · subst h1
        rcases h with h | h
        · exact absurd hn h
        · exact absurd h2 h
    · exact Or.inl
  simp only [this]

/-- An ack from a name that is not in the residual changes nothing. -/
theorem mapDelete_absent (filterMap : List String) (k : String) (h : k ∉ filterMap) :
    mapDelete filterMap k = filterMap := by
  unfold mapDelete
  rw [List.filter_eq_self]
  intro n hn
  have : n ≠ k := fun hnk => h (hnk ▸ hn)
  simpa using this

/-- C7, the attempt that breaks it: the residual holds the empty name and the
only receive is on the closed ack channel.  No member name was delivered, so
the residual minus the delivered names is still `[""]`, but the loop ends with
an empty residual. -/
theorem C7_closed_ack_channel_deletes_empty_name :
    ackedNames [Recv.ackClosed] = [] ∧
      [""].filter (fun n => decide (n ∉ ackedNames [Recv.ackClosed])) = [""] ∧
      recvLoop [""] [Recv.ackClosed] = [] := by
  refine ⟨rfl, ?_, ?_⟩
  · simp [ackedNames]
  · simp [recvLoop, mapDelete]

/-- C8: on a first attempt whose refresh step succeeds and whose target
selector returns no name, `RunQuery` calls the transport exactly once, with
query name `run:job`, ack requested and an empty filter-nodes list, and when
the transport accepts that broadcast it returns the refreshed job. -/
theorem C8_empty_target_single_broadcast (a : Agent) (jobName : String) (ex : Execution)
    (job : Job) (hRefresh : (refreshJob a jobName).2 = Except.ok job)
    (hFirst : ex.Attempt ≤ 1) (hEmpty : a.processFilteredNodes job = Except.ok []) :
    broadcasts (RunQuery a jobName ex).1 =
        [{ name := "run:job", payload := queryPayload a ex 0,
           params := { FilterNodes := [], RequestAck := true } }] ∧
      ((∃ recvs, a.Query 0 "run:job" (queryPayload a ex 0)
          { FilterNodes := [], RequestAck := true } = Except.ok recvs) →
        (RunQuery a jobName ex).2 = Result.returned job) := by
  have hb : (buildFilterMap a job ex).2 = Except.ok [] := by
    unfold buildFilterMap
    simp only [hFirst, if_true, hEmpty, List.foldl_nil]
  have hparams : queryParams a 0 [] = { FilterNodes := [], RequestAck := true } := by
    unfold queryParams
    have := a.rangeOrder_perm 0 []
    rw [List.perm_nil] at this
    simp only [this]
  have hrecv : ∀ recvs, ¬ (recvLoop [] recvs).length > 0 := by
    intro recvs
    rw [recvLoop_eq_filter]
    simp
  rw [RunQuery_broadcasts a jobName ex job [] hRefresh hb,
    RunQuery_dispatch a jobName ex job [] hRefresh hb]
  cases hq : a.Query 0 QueryRunJob (queryPayload a ex 0) (queryParams a 0 []) with
  | error err =>
    rw [retryLoop_error a job ex 0 [] err hq, hparams]
    refine ⟨rfl, ?_⟩
    rintro ⟨recvs, h⟩
    rw [hparams] at hq
    have hq2 : a.Query 0 "run:job" (queryPayload a ex 0)
        { FilterNodes := [], RequestAck := true } = Except.error err := hq
    rw [hq2] at h
    cases h
  | ok recvs =>
    rw [retryLoop_done a job ex 0 [] recvs hq (hrecv recvs), hparams]
    exact ⟨rfl, fun _ => rfl⟩

theorem C8_empty_target_single_broadcast_witness :
    broadcasts (RunQuery demoAgent "nomatch"
        { JobName := "nomatch", Attempt := 1, NodeName := "" }).1 =
        [{ name := "run:job",
           payload := queryPayload demoAgent
            { JobName := "nomatch", Attempt := 1, NodeName := "" } 0,
           params := { FilterNodes := [], RequestAck := true } }] ∧
      (RunQuery demoAgent "nomatch" { JobName := "nomatch", Attempt := 1, NodeName := "" }).2
        = Result.returned
          { Name := "nomatch", ParentJob := "", Next := 42, Tags := [("role", "gpu")] } :=
  have h := C8_empty_target_single_broadcast demoAgent "nomatch"
    { JobName := "nomatch", Attempt := 1, NodeName := "" }
    { Name := "nomatch", ParentJob := "", Next := 42, Tags := [("role", "gpu")] }
    (by simp [refreshJob, demoAgent]) (by decide) (by simp [demoAgent])
  ⟨h.1, h.2 ⟨_, rfl⟩⟩

/-- C9: when the transport refuses a broadcast, be it the first one or a
retry, `RunQuery` returns the error wrapping the transport error, no job, and
that refused call is the last call it makes on the transport. -/
theorem C9_transport_failure_aborts (a : Agent) (jobName : String) (ex : Execution)
    (k : Nat) (q : Broadcast) (err : String)
    (hq : (broadcasts (RunQuery a jobName ex).1)[k]? = some q)
    (hfail : a.Query k q.name q.payload q.params = Except.error err) :
    (RunQuery a jobName ex).2 = Result.failed (DispatchError.sendingQuery err) ∧
      (broadcasts (RunQuery a jobName ex).1).length = k + 1 := by
  rcases RunQuery_cases a jobName ex with ⟨hnil, _⟩ | ⟨job, filterMap, hr, hb⟩
  · rw [hnil] at hq
    simp at hq
  · rw [RunQuery_broadcasts a jobName ex job filterMap hr hb] at hq ⊢
    rw [RunQuery_dispatch a jobName ex job filterMap hr hb]
    exact retryLoop_refused a job ex 0 filterMap k q err hq (by rw [Nat.zero_add]; exact hfail)

theorem C9_transport_failure_aborts_witness :
    (RunQuery flakyAgent "j" { JobName := "j", Attempt := 1, NodeName := "" }).2
        = Result.failed (DispatchError.sendingQuery "no route") ∧
      (broadcasts (RunQuery flakyAgent "j"
        { JobName := "j", Attempt := 1, NodeName := "" }).1).length = 2 + 1 :=
  C9_transport_failure_aborts flakyAgent "j" { JobName := "j", Attempt := 1, NodeName := "" } 2
    { name := "run:job", payload := "@10.0.0.1:6868",
      params := { FilterNodes := ["n2", "n3"], RequestAck := true } }
    "no route"
    (by simp [RunQuery, refreshJob, flakyAgent, demoAgent, buildFilterMap, retryLoop,
      queryParams, queryPayload, recvLoop, mapSet, mapDelete, broadcasts, QueryRunJob])
    (by simp [flakyAgent])

/-- C10: every broadcast of a `RunQuery` call (1) has query name `run:job`,
asks for acks, lists no node twice, and carries as payload the marshalled
`RunQueryParam` made of the caller's execution and of the reply address read
for that pass; (2) the first broadcast of a first attempt lists exactly the
names the target selector returned, and the first broadcast of a retry lists
exactly `ex.NodeName`; (3) each later broadcast lists exactly the residual:
what the receive loop of the accepted broadcast before it left of that
broadcast's nodes. -/
theorem C10_broadcast_contents (a : Agent) (jobName : String) (ex : Execution) :
    (∀ (k : Nat) (q : Broadcast), (broadcasts (RunQuery a jobName ex).1)[k]? = some q →
        q.name = "run:job" ∧ q.params.RequestAck = true ∧ q.params.FilterNodes.Nodup ∧
        q.payload = a.marshal { Execution := ex, RPCAddr := a.getRPCAddr k }) ∧
      (∀ (job : Job) (fn : List String) (q : Broadcast),
        (refreshJob a jobName).2 = Except.ok job → ex.Attempt ≤ 1 →
        a.processFilteredNodes job = Except.ok fn →
        (broadcasts (RunQuery a jobName ex).1)[0]? = some q →
        ∀ n, n ∈ q.params.FilterNodes ↔ n ∈ fn) ∧
      (∀ (q : Broadcast), 1 < ex.Attempt →
        (broadcasts (RunQuery a jobName ex).1)[0]? = some q →
        q.params.FilterNodes = [ex.NodeName]) ∧
      (∀ (k : Nat) (q q2 : Broadcast),
        (broadcasts (RunQuery a jobName ex).1)[k]? = some q →
        (broadcasts (RunQuery a jobName ex).1)[k + 1]? = some q2 →
        ∃ recvs, a.Query k q.name q.payload q.params = Except.ok recvs ∧
          q2.params.FilterNodes.Perm (recvLoop q.params.FilterNodes recvs)) := by
  refine ⟨?_, ?_, ?_, ?_⟩
  · intro k q hq
    rcases RunQuery_cases a jobName ex with ⟨hnil, _⟩ | ⟨job, filterMap, hr, hb⟩
    · rw [hnil] at hq
      simp at hq
    · rw [RunQuery_broadcasts a jobName ex job filterMap hr hb] at hq
      obtain ⟨h1, h2, h3, _, h5, _⟩ := retryLoop_index a job ex 0 filterMap k q hq
      refine ⟨h1, h3, h5 (buildFilterMap_nodup a job ex filterMap hb), ?_⟩
      rw [h2, Nat.zero_add]
      rfl
  · intro job fn q hr hA hsel hq
    have hb : (buildFilterMap a job ex).2 = Except.ok (fn.foldl mapSet []) := by
      unfold buildFilterMap
      simp only [hA, if_true, hsel]
    rw [RunQuery_broadcasts a jobName ex job _ hr hb] at hq
    obtain ⟨rest, hrest⟩ := retryLoop_broadcasts_head a job ex 0 (fn.foldl mapSet [])
    rw [hrest] at hq
    simp only [List.getElem?_cons_zero, Option.some.injEq] at hq
    subst hq
    intro n
    have hp := (queryParams_perm a 0 (fn.foldl mapSet [])).mem_iff (a := n)
    have hm := mem_foldl_mapSet fn [] n
    simp only [List.not_mem_nil, false_or] at hm
    exact hp.trans hm
  · intro q hA hq
    rcases RunQuery_cases a jobName ex with ⟨hnil, _⟩ | ⟨job, filterMap, hr, hb⟩
    · rw [hnil] at hq
      simp at hq
    · rw [buildFilterMap_retry a job ex hA] at hb
      simp only [Except.ok.injEq] at hb
      subst hb
      have hb2 : (buildFilterMap a job ex).2 = Except.ok [ex.NodeName] := by
        rw [buildFilterMap_retry a job ex hA]
      rw [RunQuery_broadcasts a jobName ex job _ hr hb2] at hq
      obtain ⟨_, _, _, h4, h5, h6⟩ := retryLoop_index a job ex 0 [ex.NodeName] 0 q hq
      exact eq_singleton_of_nodup _ _ h4 (h5 (List.nodup_singleton _)) (h6 (by simp))
  · intro k q q2 hq hq2
    rcases RunQuery_cases a jobName ex with ⟨hnil, _⟩ | ⟨job, filterMap, hr, hb⟩
    · rw [hnil] at hq
      simp at hq
    · rw [RunQuery_broadcasts a jobName ex job filterMap hr hb] at hq hq2
      obtain ⟨recvs, h1, h2, _⟩ := retryLoop_chain a job ex 0 filterMap k q q2 hq hq2
      rw [Nat.zero_add] at h1
      exact ⟨recvs, h1, h2⟩

theorem C10_broadcast_contents_witness :
    (("run:job" = "run:job" ∧ true = true ∧ ["n2"].Nodup ∧
        "@10.0.0.1:6868" = demoAgent.marshal
          { Execution := { JobName := "j", Attempt := 1, NodeName := "" },
            RPCAddr := demoAgent.getRPCAddr 1 }) ∧
      (∀ n, n ∈ ["n1", "n2", "n3"] ↔ n ∈ ["n1", "n1", "n2", "n3"])) ∧
      (["n7"] = ["n7"] ∧
        ∃ recvs, demoAgent.Query 0 "run:job" "@10.0.0.1:6868"
            { FilterNodes := ["n1", "n2", "n3"], RequestAck := true } = Except.ok recvs ∧
          ["n2"].Perm (recvLoop ["n1", "n2", "n3"] recvs)) :=
  ⟨⟨(C10_broadcast_contents demoAgent "j" { JobName := "j", Attempt := 1, NodeName := "" }).1 1
      { name := "run:job", payload := "@10.0.0.1:6868",
        params := { FilterNodes := ["n2"], RequestAck := true } }
      (by simp [RunQuery, refreshJob, demoAgent, buildFilterMap, retryLoop, queryParams,
        queryPayload, recvLoop, mapSet, mapDelete, broadcasts, QueryRunJob]),
    (C10_broadcast_contents
      { demoAgent with processFilteredNodes := fun _ => Except.ok ["n1", "n1", "n2", "n3"] }
      "j" { JobName := "j", Attempt := 1, NodeName := "" }).2.1
      { Name := "j", ParentJob := "", Next := 42, Tags := [] } ["n1", "n1", "n2", "n3"]
      { name := "run:job", payload := "@10.0.0.1:6868",
        params := { FilterNodes := ["n1", "n2", "n3"], RequestAck := true } }
      (by simp [refreshJob, demoAgent]) (by decide) rfl
      (by simp [RunQuery, refreshJob, demoAgent, buildFilterMap, retryLoop, queryParams,
        queryPayload, recvLoop, mapSet, mapDelete, broadcasts, QueryRunJob])⟩,
    (C10_broadcast_contents demoAgent "j"
      { JobName := "j", Attempt := 3, NodeName := "n7" }).2.2.1
      { name := "run:job", payload := "n7@10.0.0.1:6868",
        params := { FilterNodes := ["n7"], RequestAck := true } }
      (by decide)
      (by simp [RunQuery, refreshJob, demoAgent, buildFilterMap, retryLoop, queryParams,
        queryPayload, recvLoop, mapSet, mapDelete, broadcasts, QueryRunJob]),
    (C10_broadcast_contents demoAgent "j"
      { JobName := "j", Attempt := 1, NodeName := "" }).2.2.2 0
      { name := "run:job", payload := "@10.0.0.1:6868",
        params := { FilterNodes := ["n1", "n2", "n3"], RequestAck := true } }
      { name := "run:job", payload := "@10.0.0.1:6868",
        params := { FilterNodes := ["n2"], RequestAck := true } }
      (by simp [RunQuery, refreshJob, demoAgent, buildFilterMap, retryLoop, queryParams,
        queryPayload, recvLoop, mapSet, mapDelete, broadcasts, QueryRunJob])
      (by simp [RunQuery, refreshJob, demoAgent, buildFilterMap, retryLoop, queryParams,
        queryPayload, recvLoop, mapSet, mapDelete, broadcasts, QueryRunJob])⟩

end Dkron
